import Mathlib

/-!
Shallow embedding of the WebPartyGames core: the war (Battle Engine) reducer
`src/apps/webpartygames/lib/games/war/logic.ts`, the resistance (Deduction
Engine) reducer module of `src/apps/webpartygames/lib/games/resistance/
ResistanceGame.tsx`, and the in-process room-channel provider of
`src/apps/webpartygames/lib/realtime/supabaseProvider.ts`.

JavaScript number semantics relevant to the code (32-bit signed results of
`^`, `<<`, the unsigned `>>>`, `Math.imul`, and the sign-of-dividend `%`)
are modelled explicitly on `Int`/`Nat`.  JavaScript arrays indexed with a
possibly negative index are modelled by `JsArr`: reads of an absent
property give `undefined` (here `Option.none`), writes to a negative index
create a plain property that is not an array element.
-/

namespace Js

/-- The low 32 bits of an integer, as a natural number (`ToUint32`). -/
def u32 (n : Int) : Nat := (n.emod 4294967296).toNat

/-- `ToInt32`: the low 32 bits of an integer, interpreted as signed. -/
def toInt32 (n : Int) : Int := (n + 2147483648).emod 4294967296 - 2147483648

/-- JavaScript `a ^ b` (both operands coerced to int32). -/
def jsXor (a b : Int) : Int := toInt32 (Int.ofNat (Nat.xor (u32 a) (u32 b)))

/-- JavaScript `a << k` (left operand coerced to int32, int32 result). -/
def jsShl (a : Int) (k : Nat) : Int := toInt32 (Int.ofNat (u32 a * 2 ^ k))

/-- JavaScript `a >>> k` (left operand coerced to uint32, logical shift). -/
def jsShrU (a : Int) (k : Nat) : Int := Int.ofNat (u32 a / 2 ^ k)

/-- JavaScript `Math.imul a b`: int32 product of the low 32 bits. -/
def jsImul (a b : Int) : Int := toInt32 (a * b)

/-- JavaScript `a % b` for integral values: remainder with the sign of the
dividend (`Int.tmod`). -/
def jsRem (a b : Int) : Int := Int.tmod a b

/-- `charCodeAt` for the BMP characters that occur in room ids. -/
def charCode (c : Char) : Int := Int.ofNat c.toNat

/-- `hashSeed` from the source: an FNV-1a loop over the seed string with
`Math.imul`, returned as `h >>> 0`. -/
def hashSeed (s : String) : Int :=
  Int.ofNat (u32 (s.data.foldl (fun h c => jsImul (jsXor h (charCode c)) 16777619) 2166136261))

/-- A JavaScript array as manipulated by `deterministicShuffle`: numeric
elements `0 .. n-1` (possibly holding `undefined` = `none` after a bad
swap), plus plain properties created by writes at out-of-range (negative)
indices. -/
structure JsArr (α : Type) where
  elems : List (Option α)
  stash : List (Int × Option α)

/-- Property read `arr[i]`: an array element when `0 ≤ i < length`,
otherwise the plain property if one was created, otherwise `undefined`. -/
def JsArr.read {α : Type} (a : JsArr α) (i : Int) : Option α :=
  if 0 ≤ i ∧ i.toNat < a.elems.length then a.elems.getD i.toNat none
  else match a.stash.lookup i with
    | some v => v
    | none => none

/-- Property write `arr[i] = v`. -/
def JsArr.write {α : Type} (a : JsArr α) (i : Int) (v : Option α) : JsArr α :=
  if 0 ≤ i ∧ i.toNat < a.elems.length then { a with elems := a.elems.set i.toNat v }
  else { a with stash := (i, v) :: a.stash }

/-- One iteration of the shuffle loop at index `i`: three xorshift steps on
`h`, then `j = h % (i + 1)` (which is negative whenever `h` is negative and
not divisible), then the swap `tmp = arr[i]; arr[i] = arr[j]; arr[j] = tmp`. -/
def fyStep {α : Type} (arr : JsArr α) (h : Int) (i : Nat) : Int × JsArr α :=
  let h1 := jsXor h (jsShl h 13)
  let h2 := jsXor h1 (jsShrU h1 17)
  let h3 := jsXor h2 (jsShl h2 5)
  let j : Int := jsRem h3 (Int.ofNat (i + 1))
  let tmp := arr.read (Int.ofNat i)
  let arr1 := arr.write (Int.ofNat i) (arr.read j)
  let arr2 := arr1.write j tmp
  (h3, arr2)

/-- The loop `for (let i = arr.length - 1; i > 0; i -= 1)`. -/
def fyLoop {α : Type} (arr : JsArr α) (h : Int) : Nat → JsArr α
  | 0 => arr
  | Nat.succ i => (fun p => fyLoop p.2 p.1 i) (fyStep arr h (i + 1))

/-- `deterministicShuffle` from the source.  The result is the array's
element list; entries are `none` where a swap with a negative `j` left an
`undefined` hole. -/
def deterministicShuffle {α : Type} (items : List α) (seed : String) : List (Option α) :=
  (fyLoop ⟨items.map some, []⟩ (hashSeed seed) (items.length - 1)).elems

end Js

namespace War

/-- A playing card (`{ suit, rank }` with rank 2..14). -/
structure Card where
  suit : String
  rank : Nat
deriving DecidableEq, Repr

def SUITS : List String := ["spades", "hearts", "diamonds", "clubs"]

def RANKS : List Nat := [2, 3, 4, 5, 6, 7, 8, 9, 10, 11, 12, 13, 14]

/-- `buildDeck`: the 52-card deck in suit-major order. -/
def buildDeck : List Card :=
  (SUITS.map (fun s => RANKS.map (fun r => Card.mk s r))).flatten

structure WarPlayer where
  id : String
  name : String
  credits : Int
  wonCards : Nat
deriving DecidableEq, Repr

/-- `WarBattleState`.  `faceUp` and the `ready` map of `WarState` are
string-keyed records read only through `=== true` / truthiness checks; they
are modelled as total functions with `undefined` collapsed to the default. -/
structure WarBattleState where
  step : String
  faceUp : String → Option Card
  warDepth : Nat
  pot : List Card
  winnerId : Option String
  message : Option String

structure WarState where
  roomId : String
  hostId : String
  phase : String
  players : List WarPlayer
  piles : String → List Card
  round : Nat
  ready : String → Bool
  revealNonce : Nat
  revealAt : Option Int
  battle : WarBattleState

def emptyBattle : WarBattleState :=
  ⟨"idle", fun _ => none, 0, [], none, none⟩

/-- `createInitialState`. -/
def createInitialState (roomId hostId : String) : WarState :=
  ⟨roomId, hostId, "lobby", [], fun _ => [], 0, fun _ => false, 0, none, emptyBattle⟩

/-- `removePlayer` of the war logic: filters the roster and, when the host
was removed, promotes `nextPlayers[0]` (keeping the old `hostId` when the
roster became empty). -/
def removePlayer (s : WarState) (playerId : String) : WarState :=
  if ¬ s.players.any (fun p => p.id = playerId) then s
  else
    let nextPlayers := s.players.filter (fun p => p.id ≠ playerId)
    let hostId :=
      if s.hostId = playerId then ((nextPlayers.head?.map WarPlayer.id).getD s.hostId)
      else s.hostId
    { s with hostId := hostId, players := nextPlayers }

/-- `canStart`. -/
def canStart (s : WarState) : Prop := s.players.length ≥ 2

instance (s : WarState) : Decidable (canStart s) := by unfold canStart; infer_instance

/-- `startGame`: shuffles the deck with seed `roomId ++ ":war"` and deals
the defined entries alternately (`deck[i]` that are `undefined` are skipped
by `if (!card) continue`). -/
def startGame (s : WarState) : WarState :=
  if s.phase ≠ "lobby" then s
  else if ¬ canStart s then s
  else if s.players.length ≠ 2 then s
  else
    let deck := Js.deterministicShuffle buildDeck (s.roomId ++ ":war")
    let aId := ((s.players.head?).map WarPlayer.id).getD "a"
    let bId := ((s.players.get? 1).map WarPlayer.id).getD "b"
    let piles0 : String → List Card := fun _ => []
    let piles :=
      deck.enum.foldl
        (fun (piles : String → List Card) ic =>
          match ic.2 with
          | none => piles
          | some card =>
            let owner := if ic.1 % 2 = 0 then aId else bId
            fun x => if x = owner then piles owner ++ [card] else piles x)
        piles0
    { s with
      phase := "playing"
      round := 0
      piles := piles
      players := s.players.map (fun p => { p with wonCards := 0 })
      battle := emptyBattle }

/-- `compareFaceUp`: `(winnerId, tied)`. -/
def compareFaceUp (faceUp : String → Option Card) (aId bId : String) :
    Option String × Bool :=
  match faceUp aId, faceUp bId with
  | some a, some b =>
    if a.rank = b.rank then (none, true)
    else (some (if a.rank > b.rank then aId else bId), false)
  | _, _ => (none, true)

/-- `shiftOne`. -/
def shiftOne (pile : List Card) : Option Card × List Card := (pile.head?, pile.tail)

/-- `state.players.find(p => p.id === winnerId)?.name ?? "Winner"`. -/
def winnerName (players : List WarPlayer) (winnerId : String) : String :=
  ((players.find? (fun p => p.id = winnerId)).map WarPlayer.name).getD "Winner"

/-- One burn iteration of the war branch.  `.error w` is the early
`finished` return with winner `w` when a pile ran out. -/
def burnStep (aId bId : String) (piles : String → List Card) (pot : List Card) :
    Except String ((String → List Card) × List Card) :=
  let aBurn := shiftOne (piles aId)
  let bBurn := shiftOne (piles bId)
  match aBurn.1, bBurn.1 with
  | some ac, some bc =>
    Except.ok
      (fun x => if x = bId then bBurn.2 else if x = aId then aBurn.2 else piles x,
        pot ++ [ac, bc])
  | some _, none => Except.error aId
  | none, some _ => Except.error bId
  | none, none =>
    Except.error (if (piles aId).length > (piles bId).length then aId else bId)

/-- The `"idle" | "resolved"` branch of `advance`: flip the top card of
each pile, compare, and either award the two-card pot or open a war. -/
def advanceIdle (s : WarState) (aId bId : String) : WarState :=
  let base := { s with
    round := s.round + 1
    battle := { s.battle with winnerId := none, message := none } }
  match shiftOne (s.piles aId), shiftOne (s.piles bId) with
  | (some ac, aRest), (some bc, bRest) =>
    let pot := [ac, bc]
    let faceUp : String → Option Card :=
      fun x => if x = bId then some bc else if x = aId then some ac else none
    let cmp := compareFaceUp faceUp aId bId
    let piles1 : String → List Card :=
      fun x => if x = bId then bRest else if x = aId then aRest else s.piles x
    match cmp.1, cmp.2 with
    | some w, false =>
      let piles2 : String → List Card :=
        fun x => if x = w then piles1 w ++ pot else piles1 x
      let players := s.players.map (fun p =>
        if p.id = w then { p with wonCards := p.wonCards + pot.length } else p)
      { base with
        players := players
        piles := piles2
        battle := ⟨"resolved", faceUp, 0, [], some w, some "Battle resolved."⟩ }
    | _, _ =>
      { base with
        piles := piles1
        battle := ⟨"war", faceUp, 1, pot, none, some "War!"⟩ }
  | _, _ =>
    { base with
      phase := "finished"
      battle := { base.battle with message := some "Game over." } }

/-- The flip-and-compare tail of the `"war"` branch of `advance`, after the
three burns succeeded with piles `piles3` and pot `pot3`. -/
def warFlip (s : WarState) (aId bId : String) (piles3 : String → List Card)
    (pot3 : List Card) : WarState :=
  match shiftOne (piles3 aId), shiftOne (piles3 bId) with
  | (some ac, aRest), (some bc, bRest) =>
    let pot4 := pot3 ++ [ac, bc]
    let piles4 : String → List Card :=
      fun x => if x = bId then bRest else if x = aId then aRest else piles3 x
    let faceUp : String → Option Card :=
      fun x => if x = bId then some bc else if x = aId then some ac else none
    let cmp := compareFaceUp faceUp aId bId
    match cmp.1, cmp.2 with
    | some w, false =>
      let piles5 : String → List Card :=
        fun x => if x = w then piles4 w ++ pot4 else piles4 x
      let players := s.players.map (fun p =>
        if p.id = w then { p with wonCards := p.wonCards + pot4.length } else p)
      { s with
        players := players
        piles := piles5
        battle := ⟨"resolved", faceUp, 0, [], some w, some "War resolved."⟩ }
    | _, _ =>
      { s with
        piles := piles4
        battle := ⟨"war", faceUp, s.battle.warDepth + 1, pot4, none,
          some "War again!"⟩ }
  | (some _, _), (none, _) =>
    { s with
      phase := "finished"
      battle := { s.battle with
        winnerId := some aId
        message := some (winnerName s.players aId ++ " wins (opponent ran out).") } }
  | (none, _), (some _, _) =>
    { s with
      phase := "finished"
      battle := { s.battle with
        winnerId := some bId
        message := some (winnerName s.players bId ++ " wins (opponent ran out).") } }
  | (none, _), (none, _) =>
    let w := if (piles3 aId).length > (piles3 bId).length then aId else bId
    { s with
      phase := "finished"
      battle := { s.battle with
        winnerId := some w
        message := some (winnerName s.players w ++ " wins (opponent ran out).") } }

/-- The `"war"` branch of `advance`: burn three cards from each pile into
the pot (an exhausted pile ends the game at once), then flip and compare. -/
def advanceWar (s : WarState) (aId bId : String) : WarState :=
  let burns := do
    let s1 ← burnStep aId bId s.piles s.battle.pot
    let s2 ← burnStep aId bId s1.1 s1.2
    burnStep aId bId s2.1 s2.2
  match burns with
  | Except.error w =>
    { s with
      phase := "finished"
      battle := { s.battle with
        winnerId := some w
        message := some (winnerName s.players w ++ " wins (opponent ran out).") } }
  | Except.ok (piles3, pot3) => warFlip s aId bId piles3 pot3

/-- `advance` from `war/logic.ts` (the host-only round reducer). -/
def advance (s : WarState) (actorId : String) : WarState :=
  if s.phase ≠ "playing" then s
  else if s.hostId ≠ actorId then s
  else if s.players.length ≠ 2 then s
  else
    let aId := ((s.players.head?).map WarPlayer.id).getD ""
    let bId := ((s.players.get? 1).map WarPlayer.id).getD ""
    if aId = "" ∨ bId = "" then s
    else if (s.piles aId).length = 0 ∨ (s.piles bId).length = 0 then
      let winnerId := if (s.piles aId).length > (s.piles bId).length then aId else bId
      { s with
        phase := "finished"
        battle := { s.battle with
          winnerId := some winnerId
          message := some (winnerName s.players winnerId ++ " wins.") } }
    else if s.battle.step = "idle" ∨ s.battle.step = "resolved" then advanceIdle s aId bId
    else if s.battle.step = "war" then advanceWar s aId bId
    else s

/-- `markReady` (war logic module used by the `flip-ready` handler). -/
def markReady (s : WarState) (playerId : String) : WarState :=
  if ¬ s.players.any (fun p => p.id = playerId) then s
  else { s with ready := fun x => if x = playerId then true else s.ready x }

/-- `clearReady`: a fresh all-false readiness record over the roster. -/
def clearReady (s : WarState) : WarState :=
  { s with ready := fun _ => false }

/-- `setReveal`. -/
def setReveal (s : WarState) (at' : Int) : WarState :=
  { s with revealNonce := s.revealNonce + 1, revealAt := some at' }

/-- The host's `flip-ready` broadcast handler from `WarGame.tsx`: mark the
signalling player ready; if (and only if) the first two roster slots are
now both ready, run one `advance` step, clear readiness and bump the
reveal nonce.  `t` stands for the `Date.now()` timestamp. -/
def handleFlipReady (s : WarState) (playerId : String) (t : Int) : WarState :=
  if s.phase ≠ "playing" then s
  else
    let marked := markReady s playerId
    let ids := (marked.players.take 2).map WarPlayer.id
    if ids.length = 2 ∧ (ids.all (fun id => marked.ready id) = true) then
      setReveal (clearReady (advance marked s.hostId)) t
    else marked

/-- Total cards visible to the two-player round: both piles plus the pot. -/
def totalCards (s : WarState) (aId bId : String) : Nat :=
  (s.piles aId).length + (s.piles bId).length + s.battle.pot.length

end War

namespace Resistance

structure ResistancePlayer where
  id : String
  name : String
  credits : Int
  isSpectator : Bool
deriving DecidableEq, Repr

structure ResistanceMissionRecord where
  mission : Nat
  teamIds : List String
  failCount : Nat
  success : Bool
deriving DecidableEq, Repr

structure MissionResult where
  failCount : Nat
  success : Bool
deriving DecidableEq, Repr

structure Score where
  resistance : Nat
  spies : Nat
deriving DecidableEq, Repr

/-- `ResistancePublicState`.  The committed public `votes` record is kept as
an association list in object-key insertion order. -/
structure ResistancePublicState where
  roomId : String
  hostId : String
  phase : String
  players : List ResistancePlayer
  leaderId : Option String
  mission : Nat
  maxMissions : Nat
  proposalNumber : Nat
  maxProposals : Nat
  teamSize : Nat
  proposedTeamIds : List String
  votesRevealed : Bool
  votes : Option (List (String × Bool))
  missionTeamIds : List String
  missionResult : Option MissionResult
  history : List ResistanceMissionRecord
  score : Score
  winner : Option String
deriving DecidableEq, Repr

def MAX_PLAYERS : Nat := 10

/-- `clampInt` restricted to the natural numbers it is applied to. -/
def clampNat (n lo hi : Nat) : Nat := max lo (min hi n)

/-- `SPY_COUNTS` lookup (`undefined` for keys outside the table). -/
def SPY_COUNTS (n : Nat) : Option Nat :=
  if n = 5 then some 2
  else if n = 6 then some 2
  else if n = 7 then some 3
  else if n = 8 then some 3
  else if n = 9 then some 3
  else if n = 10 then some 4
  else none

/-- `computeSpyCount`. -/
def computeSpyCount (playerCount : Nat) : Nat :=
  (SPY_COUNTS (clampNat playerCount 5 10)).getD 4

/-- `unique` from the source: first occurrences, in order. -/
def uniqueList (ids : List String) : List String :=
  ids.foldl (fun acc id => if acc.contains id then acc else acc ++ [id]) []

/-- `rotateLeader`.  A JavaScript-falsy `leaderId` (null or the empty
string) skips the roster lookup, as does an id that is not on the list. -/
def rotateLeader (players : List ResistancePlayer) (leaderId : Option String) :
    Option String :=
  if players.length = 0 then none
  else
    let idx : Option Nat :=
      match leaderId with
      | some lid => if lid = "" then none else players.findIdx? (fun p => p.id = lid)
      | none => none
    match idx with
    | some i => (players.get? ((i + 1) % players.length)).map ResistancePlayer.id
    | none => players.head?.map ResistancePlayer.id

/-- The ids of the non-spectator players, in roster order. -/
def activeIds (s : ResistancePublicState) : List String :=
  (s.players.filter (fun p => ¬ p.isSpectator)).map ResistancePlayer.id

/-- `assignRoles`: seeded shuffle of the first ten ids, the first
`spyCount` slots of the shuffled array become the spy set.  The result is
the role record in player order. -/
def assignRoles (playerIds : List String) (roomId : String) : List (String × String) :=
  let players := playerIds.take MAX_PLAYERS
  let spyCount := computeSpyCount players.length
  let shuffled := Js.deterministicShuffle players (roomId ++ ":roles")
  let spies := shuffled.take spyCount
  (uniqueList players).map (fun id =>
    (id, if spies.contains (some id) then "spy" else "resistance"))

/-- `createInitialPublicState`. -/
def createInitialPublicState (roomId hostId : String) : ResistancePublicState :=
  { roomId := roomId
    hostId := hostId
    phase := "lobby"
    players := []
    leaderId := some hostId
    mission := 1
    maxMissions := 5
    proposalNumber := 1
    maxProposals := 5
    teamSize := 2
    proposedTeamIds := []
    votesRevealed := false
    votes := none
    missionTeamIds := []
    missionResult := none
    history := []
    score := ⟨0, 0⟩
    winner := none }

/-- `removePlayer` of the resistance module: promotes the first remaining
non-spectator when the host left. -/
def removePlayer (s : ResistancePublicState) (playerId : String) :
    ResistancePublicState :=
  if ¬ s.players.any (fun p => p.id = playerId) then s
  else
    let nextPlayers := s.players.filter (fun p => p.id ≠ playerId)
    let active := nextPlayers.filter (fun p => ¬ p.isSpectator)
    let hostId :=
      if s.hostId = playerId then ((active.head?.map ResistancePlayer.id).getD s.hostId)
      else s.hostId
    let leaderId :=
      if s.leaderId = some playerId then rotateLeader active (some playerId)
      else s.leaderId
    { s with
      hostId := hostId
      leaderId := leaderId
      players := nextPlayers
      proposedTeamIds := s.proposedTeamIds.filter (fun id => id ≠ playerId)
      missionTeamIds := s.missionTeamIds.filter (fun id => id ≠ playerId)
      votes := s.votes.map (fun vm => vm.filter (fun e => e.1 ≠ playerId)) }

/-- `proposeTeam`. -/
def proposeTeam (s : ResistancePublicState) (leaderId : String)
    (teamIds : List String) : ResistancePublicState :=
  if s.phase ≠ "proposing" then s
  else if s.leaderId ≠ some leaderId then s
  else
    let active := activeIds s
    let cleaned :=
      ((uniqueList teamIds).filter (fun id => active.contains id)).take s.teamSize
    if cleaned.length ≠ s.teamSize then s
    else
      { s with
        phase := "voting"
        proposedTeamIds := cleaned
        votesRevealed := false
        votes := none
        missionTeamIds := []
        missionResult := none }

/-- `revealVotes`.  The argument is the vote record handed to the host:
`none` models a missing or non-boolean entry. -/
def revealVotes (s : ResistancePublicState) (votes : String → Option Bool) :
    ResistancePublicState :=
  if s.phase ≠ "voting" then s
  else
    let active := activeIds s
    if active.any (fun id => (votes id).isNone) then s
    else
      let voteMap : List (String × Bool) :=
        (uniqueList active).map (fun id => (id, (votes id).getD false))
      let approvals := (voteMap.filter (fun e => e.2)).length
      if approvals ≤ active.length / 2 then
        let nextProposal := s.proposalNumber + 1
        let nextLeaderId :=
          rotateLeader (s.players.filter (fun p => ¬ p.isSpectator)) s.leaderId
        if nextProposal > s.maxProposals then
          { s with
            phase := "finished"
            votesRevealed := true
            votes := some voteMap
            winner := some "spies"
            score := { s.score with spies := 3 } }
        else
          { s with
            phase := "proposing"
            proposalNumber := nextProposal
            leaderId := nextLeaderId
            votesRevealed := true
            votes := some voteMap
            proposedTeamIds := [] }
      else
        { s with
          phase := "mission"
          votesRevealed := true
          votes := some voteMap
          missionTeamIds := s.proposedTeamIds
          proposedTeamIds := [] }

/-- `finishMission`. -/
def finishMission (s : ResistancePublicState) (failCount : Nat) :
    ResistancePublicState :=
  if s.phase ≠ "mission" then s
  else
    let success : Bool := failCount = 0
    let score : Score :=
      ⟨s.score.resistance + (if success then 1 else 0),
        s.score.spies + (if success then 0 else 1)⟩
    let history :=
      s.history ++ [⟨s.mission, s.missionTeamIds, failCount, success⟩]
    let winner : Option String :=
      if score.resistance ≥ 3 then some "resistance"
      else if score.spies ≥ 3 then some "spies"
      else none
    { s with
      phase := if winner.isSome then "finished" else "missionResult"
      missionResult := some ⟨failCount, success⟩
      score := score
      history := history
      winner := winner }

end Resistance

namespace Local

/-- A room record of the in-process `LocalRealtimeProvider`: the last known
state and the subscriber set in insertion order (each `joinRoom` call adds
a fresh subscriber closure, modelled by an opaque token). -/
structure RoomRecord (α : Type) where
  state : Option α
  subscribers : List String

/-- `joinRoom` restricted to one room record: add the subscriber, then
deliver the last known state to the joiner if it is defined.  Returns the
new record and the list of `onStateChange` deliveries made while joining. -/
def joinRoom {α : Type} (r : RoomRecord α) (c : String) :
    RoomRecord α × List (String × α) :=
  ({ r with subscribers := r.subscribers ++ [c] },
    match r.state with
    | some v => [(c, v)]
    | none => [])

/-- `updateState`: record the new state, then deliver it to every current
subscriber (including the caller's own subscription). -/
def updateState {α : Type} (r : RoomRecord α) (v : α) :
    RoomRecord α × List (String × α) :=
  ({ r with state := some v }, r.subscribers.map (fun c => (c, v)))

/-- `leave`: remove the subscriber. -/
def leave {α : Type} (r : RoomRecord α) (c : String) : RoomRecord α :=
  { r with subscribers := r.subscribers.erase c }

end Local

/-! ## Helper lemmas -/

/-- `unique` is the identity on duplicate-free lists (auxiliary form over
the accumulator of the fold). -/
theorem uniqueList_go_eq (l : List String) : ∀ (acc : List String), l.Nodup →
    (∀ x ∈ l, x ∉ acc) →
    l.foldl (fun acc id => if acc.contains id then acc else acc ++ [id]) acc = acc ++ l := by
  induction l with
  | nil => intro acc _ _; simp
  | cons a t ih =>
    intro acc hnd hdisj
    have ha : acc.contains a = false := by
      simpa using hdisj a (List.mem_cons_self a t)
    have ht : t.Nodup := (List.nodup_cons.mp hnd).2
    have hna : a ∉ t := (List.nodup_cons.mp hnd).1
    have hdisj' : ∀ x ∈ t, x ∉ acc ++ [a] := by
      intro x hx
      simp only [List.mem_append, List.mem_singleton]
      rintro (hxa | rfl)
      · exact hdisj x (List.mem_cons_of_mem a hx) hxa
      · exact hna hx
    simp only [List.foldl_cons, ha, Bool.false_eq_true, if_false]
    rw [ih (acc ++ [a]) ht hdisj']
    simp

theorem uniqueList_eq_self (l : List String) (h : l.Nodup) :
    Resistance.uniqueList l = l := by
  have := uniqueList_go_eq l [] h (by intro x _ hx; simp at hx)
  simpa [Resistance.uniqueList] using this

/-- Projection facts: no branch of the round reducer touches the reveal
nonce; every branch spreads its input state and only overrides other
fields. -/
theorem advanceIdle_revealNonce (s : War.WarState) (aId bId : String) :
    (War.advanceIdle s aId bId).revealNonce = s.revealNonce := by
  unfold War.advanceIdle
  dsimp only
  repeat' (first | split | dsimp only)

theorem warFlip_revealNonce (s : War.WarState) (aId bId : String)
    (piles3 : String → List War.Card) (pot3 : List War.Card) :
    (War.warFlip s aId bId piles3 pot3).revealNonce = s.revealNonce := by
  unfold War.warFlip
  dsimp only
  repeat' (first | split | dsimp only)

theorem advanceWar_revealNonce (s : War.WarState) (aId bId : String) :
    (War.advanceWar s aId bId).revealNonce = s.revealNonce := by
  unfold War.advanceWar
  dsimp only
  repeat' split
  · rfl
  · exact warFlip_revealNonce _ _ _ _ _

theorem advance_revealNonce (s : War.WarState) (a : String) :
    (War.advance s a).revealNonce = s.revealNonce := by
  unfold War.advance
  dsimp only
  repeat' split
  all_goals first
    | rfl
    | exact advanceIdle_revealNonce _ _ _
    | exact advanceWar_revealNonce _ _ _

/-! ## Claim theorems -/

/-- C7: illegal events are identity no-ops and hence idempotent.  `advance`
returns its input unchanged when the phase is not `"playing"` or the actor
is not the host; `proposeTeam` returns its input unchanged when the phase
is not `"proposing"`, the actor is not the current leader, or the cleaned
team size differs from `teamSize`; applying the same such event twice
equals applying it once. -/
theorem illegal_events_identity_noops (sw : War.WarState) (a : String)
    (sr : Resistance.ResistancePublicState) (b : String) (team : List String)
    (hw : sw.phase ≠ "playing" ∨ sw.hostId ≠ a)
    (hr : sr.phase ≠ "proposing" ∨ sr.leaderId ≠ some b ∨
      (((Resistance.uniqueList team).filter
        (fun id => (Resistance.activeIds sr).contains id)).take sr.teamSize).length ≠
        sr.teamSize) :
    War.advance sw a = sw ∧
    War.advance (War.advance sw a) a = War.advance sw a ∧
    Resistance.proposeTeam sr b team = sr ∧
    Resistance.proposeTeam (Resistance.proposeTeam sr b team) b team =
      Resistance.proposeTeam sr b team := by
  have hadv : War.advance sw a = sw := by
    unfold War.advance
    dsimp only
    rcases hw with h | h
    · rw [if_pos h]
    · by_cases hp : sw.phase ≠ "playing"
      · rw [if_pos hp]
      · rw [if_neg hp, if_pos h]
  have hprop : Resistance.proposeTeam sr b team = sr := by
    unfold Resistance.proposeTeam
    dsimp only
    rcases hr with h | h | h
    · rw [if_pos h]
    · by_cases hp : sr.phase ≠ "proposing"
      · rw [if_pos hp]
      · rw [if_neg hp, if_pos h]
    · by_cases hp : sr.phase ≠ "proposing"
      · rw [if_pos hp]
      · rw [if_neg hp]
        by_cases hl : sr.leaderId ≠ some b
        · rw [if_pos hl]
        · rw [if_neg hl, if_pos h]
  exact ⟨hadv, by rw [hadv, hadv], hprop, by rw [hprop, hprop]⟩

def warW7 : War.WarState :=
  { War.createInitialState "room" "a" with
    players := [⟨"a", "Alice", 0, 0⟩, ⟨"b", "Bea", 0, 0⟩] }

def rsW7 : Resistance.ResistancePublicState :=
  Resistance.createInitialPublicState "room" "a"

/-- Witness for C7 at a lobby-phase state. -/
theorem illegal_events_identity_noops_witness :
    War.advance warW7 "a" = warW7 ∧
    Resistance.proposeTeam rsW7 "a" [] = rsW7 := by
  have h := illegal_events_identity_noops warW7 "a" rsW7 "a" []
    (Or.inl (by decide)) (Or.inl (by decide))
  exact ⟨h.1, h.2.2.1⟩

def rsC8 : Resistance.ResistancePublicState :=
  { Resistance.createInitialPublicState "room" "a" with
    players := [⟨"a", "Alice", 0, false⟩, ⟨"b", "Bea", 0, true⟩, ⟨"c", "Cal", 0, false⟩] }

/-- C8 counterexample: removing the host of `rsC8` promotes the first
*non-spectator* `"c"`, not `players[0]` of the remaining roster (the
spectator `"b"`), so the claimed promotion of `players[0]` fails on the
deduction engine's `removePlayer`. -/
theorem removePlayer_promotion_counterexample :
    ((Resistance.removePlayer rsC8 "a").players.map Resistance.ResistancePlayer.id) =
      ["b", "c"] ∧
    (Resistance.removePlayer rsC8 "a").hostId = "c" ∧
    (Resistance.removePlayer rsC8 "a").hostId ≠ "b" := by
  refine ⟨rfl, rfl, by decide⟩

/-- C8 amended: `removePlayer` promotes deterministically on host removal —
the war engine promotes `players[0]` of the remaining roster, the deduction
engine promotes the first remaining non-spectator, each keeping the old
`hostId` when no such member remains; when the removed player is not the
host, `hostId` is unchanged. -/
theorem removePlayer_host_promotion (sw : War.WarState) (p : String)
    (sr : Resistance.ResistancePublicState) (q : String)
    (hwm : sw.players.any (fun x => x.id = p) = true)
    (hrm : sr.players.any (fun x => x.id = q) = true) :
    (sw.hostId = p →
      (War.removePlayer sw p).hostId =
        (((sw.players.filter (fun x => x.id ≠ p)).head?.map War.WarPlayer.id).getD
          sw.hostId)) ∧
    (sw.hostId ≠ p → (War.removePlayer sw p).hostId = sw.hostId) ∧
    (sr.hostId = q →
      (Resistance.removePlayer sr q).hostId =
        ((((sr.players.filter (fun x => x.id ≠ q)).filter
          (fun x => ¬ x.isSpectator)).head?.map Resistance.ResistancePlayer.id).getD
          sr.hostId)) ∧
    (sr.hostId ≠ q → (Resistance.removePlayer sr q).hostId = sr.hostId) := by
  refine ⟨?_, ?_, ?_, ?_⟩ <;> intro h <;>
    simp [War.removePlayer, Resistance.removePlayer, hwm, hrm, h]

def warW8 : War.WarState :=
  { War.createInitialState "room" "a" with
    players := [⟨"a", "Alice", 0, 0⟩, ⟨"b", "Bea", 0, 0⟩] }

/-- Witness for C8: removing host `"a"` of `warW8` promotes `"b"`; removing
non-host `"b"` of `rsC8` keeps the host. -/
theorem removePlayer_host_promotion_witness :
    (War.removePlayer warW8 "a").hostId = "b" ∧
    (Resistance.removePlayer rsC8 "b").hostId = rsC8.hostId := by
  constructor
  · exact ((removePlayer_host_promotion warW8 "a" rsC8 "b" (by decide) (by decide)).1
      rfl).trans (by rfl)
  · exact (removePlayer_host_promotion warW8 "a" rsC8 "b" (by decide) (by decide)).2.2.2
      (by decide)

/-- C9: in the in-process room-channel provider, `updateState` delivers the
full state to every current subscriber — including the caller's own
subscription added by `joinRoom` — and a joiner of a room whose last known
state is defined receives that state while joining. -/
theorem local_provider_replication {α : Type} (r : Local.RoomRecord α) (c : String)
    (v w : α) :
    (∀ x ∈ (Local.joinRoom r c).1.subscribers,
      (x, v) ∈ (Local.updateState (Local.joinRoom r c).1 v).2) ∧
    ((c, v) ∈ (Local.updateState (Local.joinRoom r c).1 v).2) ∧
    (r.state = some w → (c, w) ∈ (Local.joinRoom r c).2) := by
  refine ⟨?_, ?_, ?_⟩
  · intro x hx
    simp only [Local.updateState, Local.joinRoom] at hx ⊢
    exact List.mem_map_of_mem _ hx
  · simp [Local.updateState, Local.joinRoom]
  · intro h; simp [Local.joinRoom, h]

def room9 : Local.RoomRecord String := ⟨some "s0", ["peer"]⟩

/-- Witness for C9 on a one-subscriber room with a defined last state. -/
theorem local_provider_replication_witness :
    (("me", "s1") ∈ (Local.updateState (Local.joinRoom room9 "me").1 "s1").2) ∧
    (("me", "s0") ∈ (Local.joinRoom room9 "me").2) :=
  ⟨(local_provider_replication room9 "me" "s1" "s0").2.1,
   (local_provider_replication room9 "me" "s1" "s0").2.2 rfl⟩

/-- C10: all-or-nothing vote reveal — if the vote map lacks a boolean entry
for any active (non-spectator) player, `revealVotes` returns the input
state unchanged. -/
theorem revealVotes_all_or_nothing (s : Resistance.ResistancePublicState)
    (votes : String → Option Bool) (id : String)
    (hid : id ∈ Resistance.activeIds s) (hnone : votes id = none) :
    Resistance.revealVotes s votes = s := by
  by_cases hp : s.phase = "voting"
  · have hany : (Resistance.activeIds s).any (fun i => (votes i).isNone) = true :=
      List.any_eq_true.mpr ⟨id, hid, by simp [hnone]⟩
    simp [Resistance.revealVotes, hp, hany]
  · simp [Resistance.revealVotes, hp]

def rsV10 : Resistance.ResistancePublicState :=
  { Resistance.createInitialPublicState "room" "a" with
    phase := "voting"
    players := [⟨"a", "Alice", 0, false⟩] }

/-- Witness for C10: an entirely missing vote map changes nothing. -/
theorem revealVotes_all_or_nothing_witness :
    Resistance.revealVotes rsV10 (fun _ => none) = rsV10 :=
  revealVotes_all_or_nothing rsV10 (fun _ => none) "a" (by decide) rfl

/-- C6: `finishMission` in the `"mission"` phase marks the mission
successful iff the fail count is zero, increments exactly one side's score
by exactly one, and (for reachable scores, both at most 2 beforehand) sets
the winner and moves to `"finished"` exactly when the incremented score of
either side reaches 3, otherwise moving to `"missionResult"` with no
winner. -/
theorem resistance_mission_scoring (s : Resistance.ResistancePublicState) (f : Nat)
    (hphase : s.phase = "mission")
    (hres : s.score.resistance ≤ 2) (hsp : s.score.spies ≤ 2) :
    ((Resistance.finishMission s f).missionResult.map (fun r => r.success) = some true ↔
      f = 0) ∧
    (f = 0 → (Resistance.finishMission s f).score.resistance = s.score.resistance + 1 ∧
      (Resistance.finishMission s f).score.spies = s.score.spies) ∧
    (f ≠ 0 → (Resistance.finishMission s f).score.spies = s.score.spies + 1 ∧
      (Resistance.finishMission s f).score.resistance = s.score.resistance) ∧
    (((Resistance.finishMission s f).score.resistance = 3 ∨
        (Resistance.finishMission s f).score.spies = 3) ↔
      ((Resistance.finishMission s f).phase = "finished" ∧
        (Resistance.finishMission s f).winner.isSome = true)) ∧
    ((Resistance.finishMission s f).score.resistance = 3 →
      (Resistance.finishMission s f).winner = some "resistance") ∧
    ((Resistance.finishMission s f).score.spies = 3 →
      (Resistance.finishMission s f).winner = some "spies") ∧
    (¬((Resistance.finishMission s f).score.resistance = 3 ∨
        (Resistance.finishMission s f).score.spies = 3) →
      (Resistance.finishMission s f).phase = "missionResult" ∧
        (Resistance.finishMission s f).winner = none) := by
  have hp : ¬ s.phase ≠ "mission" := by simp [hphase]
  unfold Resistance.finishMission
  rw [if_neg hp]
  dsimp only
  split_ifs <;> simp_all <;> omega

def rsM6 : Resistance.ResistancePublicState :=
  { Resistance.createInitialPublicState "room" "a" with
    phase := "mission"
    players := [⟨"a", "Alice", 0, false⟩, ⟨"b", "Bea", 0, false⟩] }

/-- Witness for C6: one fail card fails the mission and scores the spies. -/
theorem resistance_mission_scoring_witness :
    (Resistance.finishMission rsM6 1).score.spies = rsM6.score.spies + 1 ∧
    (Resistance.finishMission rsM6 1).score.resistance = rsM6.score.resistance :=
  (resistance_mission_scoring rsM6 1 rfl (by decide) (by decide)).2.2.1 (by decide)

/-- The approval count computed by `revealVotes` from the committed vote
map equals the number of active players whose submitted vote is `true`
(for duplicate-free rosters with a complete vote map). -/
theorem revealVotes_count_eq (s : Resistance.ResistancePublicState)
    (votes : String → Option Bool)
    (hnodup : (Resistance.activeIds s).Nodup)
    (hcomplete : ∀ id ∈ Resistance.activeIds s, (votes id).isSome = true) :
    ((((Resistance.uniqueList (Resistance.activeIds s)).map
      (fun id => (id, (votes id).getD false))).filter (fun e => e.2)).length) =
    ((Resistance.activeIds s).filter (fun id => votes id = some true)).length := by
  rw [uniqueList_eq_self _ hnodup]
  rw [List.filter_map, List.length_map]
  congr 1
  apply List.filter_congr
  intro id hid
  have := hcomplete id hid
  cases hv : votes id with
  | none => rw [hv] at this; simp at this
  | some b => cases b <;> simp [hv]

/-- C2: with a complete boolean vote map over a duplicate-free active
roster, `revealVotes` approves the proposal — moving to the `"mission"`
phase with `missionTeamIds` set to the proposed team — precisely when the
approve count strictly exceeds `⌊n/2⌋` for `n` active players. -/
theorem resistance_vote_threshold (s : Resistance.ResistancePublicState)
    (votes : String → Option Bool)
    (hphase : s.phase = "voting")
    (hnodup : (Resistance.activeIds s).Nodup)
    (hcomplete : ∀ id ∈ Resistance.activeIds s, (votes id).isSome = true) :
    ((Resistance.revealVotes s votes).phase = "mission" ∧
      (Resistance.revealVotes s votes).missionTeamIds = s.proposedTeamIds) ↔
    ((Resistance.activeIds s).filter (fun id => votes id = some true)).length >
      (Resistance.activeIds s).length / 2 := by
  have hp : ¬ s.phase ≠ "voting" := by simp [hphase]
  have hany : (Resistance.activeIds s).any (fun id => (votes id).isNone) = false := by
    rw [List.any_eq_false]
    intro x hx
    have := hcomplete x hx
    cases hv : votes x <;> simp [hv] at this ⊢
  unfold Resistance.revealVotes
  rw [if_neg hp]
  dsimp only
  rw [if_neg (by simp [hany])]
  rw [revealVotes_count_eq s votes hnodup hcomplete]
  by_cases hle :
      ((Resistance.activeIds s).filter (fun id => votes id = some true)).length ≤
        (Resistance.activeIds s).length / 2
  · rw [if_pos hle]
    by_cases hdl : s.proposalNumber + 1 > s.maxProposals
    · rw [if_pos hdl]
      simp only []
      constructor
      · intro h; exact absurd h.1 (by simp)
      · intro h; omega
    · rw [if_neg hdl]
      constructor
      · intro h; exact absurd h.1 (by simp)
      · intro h; omega
  · rw [if_neg hle]
    constructor
    · intro _; omega
    · intro _; exact ⟨rfl, rfl⟩

def rsV6 : Resistance.ResistancePublicState :=
  { Resistance.createInitialPublicState "room" "a" with
    phase := "voting"
    players := [⟨"a", "A", 0, false⟩, ⟨"b", "B", 0, false⟩, ⟨"c", "C", 0, false⟩,
      ⟨"d", "D", 0, false⟩, ⟨"e", "E", 0, false⟩, ⟨"f", "F", 0, false⟩] }

def votes3of6 : String → Option Bool := fun id =>
  if id = "a" ∨ id = "b" ∨ id = "c" then some true
  else if id = "d" ∨ id = "e" ∨ id = "f" then some false
  else none

def rsV7 : Resistance.ResistancePublicState :=
  { Resistance.createInitialPublicState "room" "a" with
    phase := "voting"
    players := [⟨"a", "A", 0, false⟩, ⟨"b", "B", 0, false⟩, ⟨"c", "C", 0, false⟩,
      ⟨"d", "D", 0, false⟩, ⟨"e", "E", 0, false⟩, ⟨"f", "F", 0, false⟩,
      ⟨"g", "G", 0, false⟩] }

def votes4of7 : String → Option Bool := fun id =>
  if id = "a" ∨ id = "b" ∨ id = "c" ∨ id = "d" then some true
  else if id = "e" ∨ id = "f" ∨ id = "g" then some false
  else none

/-- Witness for C2: 3 approvals of 6 reject; 4 approvals of 7 approve. -/
theorem resistance_vote_threshold_witness :
    (¬((Resistance.revealVotes rsV6 votes3of6).phase = "mission" ∧
      (Resistance.revealVotes rsV6 votes3of6).missionTeamIds = rsV6.proposedTeamIds)) ∧
    ((Resistance.revealVotes rsV7 votes4of7).phase = "mission" ∧
      (Resistance.revealVotes rsV7 votes4of7).missionTeamIds = rsV7.proposedTeamIds) := by
  constructor
  · intro h
    have hc := (resistance_vote_threshold rsV6 votes3of6 rfl (by decide) (by decide)).mp h
    revert hc
    decide
  · exact (resistance_vote_threshold rsV7 votes4of7 rfl (by decide) (by decide)).mpr
      (by decide)

/-- C3: a rejected proposal numbered `maxProposals = 5` ends the game at
once — `revealVotes` moves to `"finished"` with winner `"spies"` and the
proposal number is not advanced to a sixth proposal. -/
theorem resistance_proposal_deadlock (s : Resistance.ResistancePublicState)
    (votes : String → Option Bool)
    (hphase : s.phase = "voting")
    (hnodup : (Resistance.activeIds s).Nodup)
    (hcomplete : ∀ id ∈ Resistance.activeIds s, (votes id).isSome = true)
    (hmax : s.maxProposals = 5)
    (hnum : s.proposalNumber = 5)
    (hrej : ((Resistance.activeIds s).filter (fun id => votes id = some true)).length ≤
      (Resistance.activeIds s).length / 2) :
    (Resistance.revealVotes s votes).phase = "finished" ∧
    (Resistance.revealVotes s votes).winner = some "spies" ∧
    (Resistance.revealVotes s votes).proposalNumber = s.proposalNumber := by
  have hp : ¬ s.phase ≠ "voting" := by simp [hphase]
  have hany : (Resistance.activeIds s).any (fun id => (votes id).isNone) = false := by
    rw [List.any_eq_false]
    intro x hx
    have := hcomplete x hx
    cases hv : votes x <;> simp [hv] at this ⊢
  unfold Resistance.revealVotes
  rw [if_neg hp]
  dsimp only
  rw [if_neg (by simp [hany])]
  rw [revealVotes_count_eq s votes hnodup hcomplete]
  rw [if_pos hrej, if_pos (by omega)]
  exact ⟨rfl, rfl, rfl⟩

def rsV5d : Resistance.ResistancePublicState :=
  { Resistance.createInitialPublicState "room" "a" with
    phase := "voting"
    proposalNumber := 5
    players := [⟨"a", "A", 0, false⟩, ⟨"b", "B", 0, false⟩, ⟨"c", "C", 0, false⟩,
      ⟨"d", "D", 0, false⟩, ⟨"e", "E", 0, false⟩] }

/-- Witness for C3: the fifth proposal rejected unanimously finishes the
game for the spies. -/
theorem resistance_proposal_deadlock_witness :
    (Resistance.revealVotes rsV5d (fun _ => some false)).phase = "finished" ∧
    (Resistance.revealVotes rsV5d (fun _ => some false)).winner = some "spies" ∧
    (Resistance.revealVotes rsV5d (fun _ => some false)).proposalNumber =
      rsV5d.proposalNumber :=
  resistance_proposal_deadlock rsV5d (fun _ => some false) rfl (by decide) (by decide)
    rfl rfl (by decide)

/-- `markReady` changes at most the readiness record. -/
theorem markReady_phase (st : War.WarState) (q : String) :
    (War.markReady st q).phase = st.phase := by
  unfold War.markReady; split <;> rfl

theorem markReady_hostId (st : War.WarState) (q : String) :
    (War.markReady st q).hostId = st.hostId := by
  unfold War.markReady; split <;> rfl

theorem markReady_revealNonce (st : War.WarState) (q : String) :
    (War.markReady st q).revealNonce = st.revealNonce := by
  unfold War.markReady; split <;> rfl

/-- C4: the ready rendezvous of the battle engine.  A first ready signal
only marks the player ready (piles, battle and round untouched, so no
resolution); a duplicate signal is absorbed; the two signals commute, the
completed rendezvous bumps the reveal nonce exactly once, and it clears
both ready flags. -/
theorem war_ready_rendezvous (s : War.WarState) (pa pb : War.WarPlayer)
    (t1 t2 t : Int)
    (hphase : s.phase = "playing")
    (hplayers : s.players = [pa, pb])
    (hne : pa.id ≠ pb.id)
    (hra : s.ready pa.id = false)
    (hrb : s.ready pb.id = false) :
    War.handleFlipReady s pa.id t1 = War.markReady s pa.id ∧
    (War.handleFlipReady s pa.id t1).piles = s.piles ∧
    (War.handleFlipReady s pa.id t1).battle = s.battle ∧
    (War.handleFlipReady s pa.id t1).round = s.round ∧
    War.handleFlipReady (War.handleFlipReady s pa.id t1) pa.id t2 =
      War.handleFlipReady s pa.id t1 ∧
    War.handleFlipReady (War.handleFlipReady s pa.id t1) pb.id t =
      War.handleFlipReady (War.handleFlipReady s pb.id t2) pa.id t ∧
    (War.handleFlipReady (War.handleFlipReady s pa.id t1) pb.id t).revealNonce =
      s.revealNonce + 1 ∧
    (∀ x, (War.handleFlipReady (War.handleFlipReady s pa.id t1) pb.id t).ready x =
      false) := by
  have hne' : pb.id ≠ pa.id := Ne.symm hne
  have hmark : ∀ (st : War.WarState), st.players = [pa, pb] →
      ∀ q : War.WarPlayer, (q.id = pa.id ∨ q.id = pb.id) →
      War.markReady st q.id =
        { st with ready := fun x => if x = q.id then true else st.ready x } := by
    intro st hst q hq
    have hqmem : st.players.any (fun p => p.id = q.id) = true := by
      rw [hst]; rcases hq with h | h <;> simp [h]
    unfold War.markReady
    rw [if_neg (by simp [hqmem])]
  have hMa := hmark s hplayers pa (Or.inl rfl)
  have hMb := hmark s hplayers pb (Or.inr rfl)
  have hMab := hmark { s with ready := fun x => if x = pa.id then true else s.ready x }
    hplayers pb (Or.inr rfl)
  have hMba := hmark { s with ready := fun x => if x = pb.id then true else s.ready x }
    hplayers pa (Or.inl rfl)
  have hMaa := hmark { s with ready := fun x => if x = pa.id then true else s.ready x }
    hplayers pa (Or.inl rfl)
  have step1 : War.handleFlipReady s pa.id t1 = War.markReady s pa.id := by
    unfold War.handleFlipReady
    rw [if_neg (by simp [hphase])]
    dsimp only
    split
    · exfalso
      rename_i h
      rw [hMa] at h
      simp [hplayers, hrb, hne'] at h
    · rfl
  have step1b : War.handleFlipReady s pb.id t2 = War.markReady s pb.id := by
    unfold War.handleFlipReady
    rw [if_neg (by simp [hphase])]
    dsimp only
    split
    · exfalso
      rename_i h
      rw [hMb] at h
      simp [hplayers, hra, hne] at h
    · rfl
  have step2 : War.handleFlipReady (War.handleFlipReady s pa.id t1) pb.id t =
      War.setReveal
        (War.clearReady (War.advance (War.markReady (War.markReady s pa.id) pb.id)
          s.hostId)) t := by
    rw [step1, hMa]
    unfold War.handleFlipReady
    rw [if_neg (by simp [hphase])]
    dsimp only
    split
    · rfl
    · rename_i h
      exfalso
      apply h
      rw [hMab]
      refine ⟨?_, ?_⟩ <;> simp [hplayers, hne]
  have step2b : War.handleFlipReady (War.handleFlipReady s pb.id t2) pa.id t =
      War.setReveal
        (War.clearReady (War.advance (War.markReady (War.markReady s pb.id) pa.id)
          s.hostId)) t := by
    rw [step1b, hMb]
    unfold War.handleFlipReady
    rw [if_neg (by simp [hphase])]
    dsimp only
    split
    · rfl
    · rename_i h
      exfalso
      apply h
      rw [hMba]
      refine ⟨?_, ?_⟩ <;> simp [hplayers, hne']
  have hmarked_comm : War.markReady (War.markReady s pa.id) pb.id =
      War.markReady (War.markReady s pb.id) pa.id := by
    rw [hMa, hMb, hMab, hMba]
    have hfun : (fun x => if x = pb.id then true else
        (if x = pa.id then true else s.ready x)) =
        (fun x => if x = pa.id then true else (if x = pb.id then true else s.ready x)) := by
      funext x
      by_cases h1 : x = pb.id <;> by_cases h2 : x = pa.id <;> simp [h1, h2]
    show ({ s with ready := fun x => if x = pb.id then true else
        (if x = pa.id then true else s.ready x) } : War.WarState) =
      { s with ready := fun x => if x = pa.id then true else
        (if x = pb.id then true else s.ready x) }
    rw [hfun]
  have hdup : War.handleFlipReady (War.handleFlipReady s pa.id t1) pa.id t2 =
      War.handleFlipReady s pa.id t1 := by
    rw [step1, hMa]
    unfold War.handleFlipReady
    rw [if_neg (by simp [hphase])]
    dsimp only
    split
    · exfalso
      rename_i h
      rw [hMaa] at h
      simp [hplayers, hrb, hne'] at h
    · rw [hMaa]
      have hfun : (fun x => if x = pa.id then true else
          (if x = pa.id then true else s.ready x)) =
          (fun x => if x = pa.id then true else s.ready x) := by
        funext x
        by_cases hx : x = pa.id <;> simp [hx]
      show ({ s with ready := fun x => if x = pa.id then true else
          (if x = pa.id then true else s.ready x) } : War.WarState) =
        { s with ready := fun x => if x = pa.id then true else s.ready x }
      rw [hfun]
  refine ⟨step1, by rw [step1, hMa], by rw [step1, hMa], by rw [step1, hMa], hdup,
    ?_, ?_, ?_⟩
  · rw [step2, step2b, hmarked_comm]
  · rw [step2]
    show (War.advance (War.markReady (War.markReady s pa.id) pb.id)
      s.hostId).revealNonce + 1 = s.revealNonce + 1
    rw [advance_revealNonce, markReady_revealNonce, markReady_revealNonce]
  · intro x
    rw [step2]
    rfl

def warW4 : War.WarState :=
  { War.createInitialState "room" "a" with
    phase := "playing"
    players := [⟨"a", "Alice", 0, 0⟩, ⟨"b", "Bea", 0, 0⟩] }

/-- Witness for C4: one signal only marks ready, and the two arrival
orders produce the identical state. -/
theorem war_ready_rendezvous_witness :
    War.handleFlipReady warW4 "a" 0 = War.markReady warW4 "a" ∧
    War.handleFlipReady (War.handleFlipReady warW4 "a" 0) "b" 7 =
      War.handleFlipReady (War.handleFlipReady warW4 "b" 3) "a" 7 := by
  have h := war_ready_rendezvous warW4 ⟨"a", "Alice", 0, 0⟩ ⟨"b", "Bea", 0, 0⟩ 0 3 7
    rfl rfl (by decide) rfl rfl
  exact ⟨h.1, h.2.2.2.2.2.1⟩

def warLobbyROOM : War.WarState :=
  { War.createInitialState "ROOM" "alice" with
    players := [⟨"alice", "Alice", 0, 0⟩, ⟨"bob", "Bob", 0, 0⟩] }

set_option maxRecDepth 40000 in
/-- C1 (failing evaluation): starting a game in room `"ROOM"` deals only 40
of the 52 cards — `deterministicShuffle` leaves `undefined` holes whenever
`j = h % (i + 1)` is negative, and `startGame` skips them — so the piles
plus pot total 40, not the 52 the conservation claim asserts. -/
theorem war_card_total_not_conserved :
    War.totalCards (War.startGame warLobbyROOM) "alice" "bob" = 40 ∧ 40 ≠ 52 := by
  exact ⟨by decide, by decide⟩

set_option maxRecDepth 40000 in
/-- C5 (failing evaluation): `assignRoles` for the five distinct players
`p1..p5` in room `"DEMO"` marks only one of them `"spy"`, although the
engine's own `SPY_COUNTS` table (and the SQL `resistance_spy_count`)
demand two spies for five players: a shuffle hole landed in the spy
prefix. -/
theorem resistance_role_count_bug :
    (Resistance.assignRoles ["p1", "p2", "p3", "p4", "p5"] "DEMO").countP
      (fun e => e.2 = "spy") = 1 ∧
    Resistance.computeSpyCount 5 = 2 := by
  exact ⟨by decide, by decide⟩
